import Mathlib

/-!
Verification development for the Swissgrid time-series ingestion repository.

The embedding below models, at the level of character lists:
  * `transform_timestamp_fast` (src/ingestion_perf.py), the line normalizer,
    including the Python exception structure (a `ValueError` raised by
    `float(...)` or by `ciso8601.parse_datetime(...)` is represented in
    `transformExc`, and the surrounding `try/except` is the wrapper
    `transform_timestamp_fast`);
  * `ensure_table_and_hypertable` and the `COPY`-based `ingest_parallel`
    pipeline (src/ingestion_perf.py), over an explicit sink state;
  * the schema/insert phases of `ingest_data` (src/ingestion.py);
  * `get_db_connection` (src/database.py) and `get_async_db_pool`
    (src/main.py), over an oracle saying which connection attempts succeed;
  * the two read endpoints `get_raw_data` and `get_aggregated_data`
    (src/main.py) over a list of sink rows.
-/

namespace Swissgrid

/-- The ASCII whitespace characters stripped by Python's `str.strip()` and
matched by the regex class `\s` (the Unicode-only space characters are not
needed by any claim). -/
def pySpace (c : Char) : Bool :=
  c = ' ' || c = '\t' || c = '\n' || c = '\r' || c = '\x0b' || c = '\x0c'

/-- Remove the trailing characters satisfying `p` (the right half of a
Python `strip`/`rstrip`). -/
def dropTrailing (p : Char → Bool) (l : List Char) : List Char :=
  (l.reverse.dropWhile p).reverse

/-- Python `str.strip(chars)`: drop the leading and trailing characters
satisfying `p`. -/
def stripPy (p : Char → Bool) (l : List Char) : List Char :=
  dropTrailing p (l.dropWhile p)

/-- Python `str.strip()` (default whitespace). -/
def stripWs (l : List Char) : List Char := stripPy pySpace l

/-- Python `str.strip('"')`. -/
def stripQuote (l : List Char) : List Char := stripPy (fun c => c = '"') l

/-- Python `str.split(";")`: the list of chunks between the semicolons
(`"".split(";") == [""]`, and separators at the ends yield empty chunks). -/
def splitSemi : List Char → List (List Char)
  | [] => [[]]
  | c :: rest =>
    if c = ';' then [] :: splitSemi rest
    else
      match splitSemi rest with
      | [] => [[c]]
      | h :: t => (c :: h) :: t

/-- Python `str.replace(",", ".")`, character by character. -/
def commaToDot (c : Char) : Char := if c = ',' then '.' else c

/-! ### The Python `float(...)` acceptance test

`transform_timestamp_fast` calls `float(raw_freq)` purely as a validity
check (the parsed value is discarded and the original text is emitted), so
the embedding only needs the predicate "does Python's `float` accept this
string": surrounding whitespace, an optional sign, then either an
infinity/NaN spelling (case-insensitive) or a decimal number with optional
fraction, optional exponent, and underscores allowed only between digits. -/

/-- All characters are ASCII digits. -/
def allDigits (l : List Char) : Bool := l.all Char.isDigit

/-- Check Python's numeric-literal underscore rule: every `'_'` must be
immediately preceded and followed by a digit.  `prev` is the character
before the current head (seeded with a non-digit). -/
def usAux : Char → List Char → Bool
  | _, [] => true
  | p, c :: rest =>
    if c = '_' then
      p.isDigit &&
        (match rest with
         | d :: _ => d.isDigit
         | [] => false) &&
        usAux c rest
    else usAux c rest

/-- Underscore placement is legal for Python's float grammar. -/
def underscoresOk (l : List Char) : Bool := usAux 'x' l

/-- Split at the first character satisfying `p`: the prefix before it, and
(when present) the remainder after it. -/
def splitAtFirst (p : Char → Bool) : List Char → List Char × Option (List Char)
  | [] => ([], none)
  | c :: rest =>
    if p c then ([], some rest)
    else
      match splitAtFirst p rest with
      | (a, b) => (c :: a, b)

/-- The mantissa of a Python float literal: digits with an optional dot,
at least one digit overall. -/
def mantOk (l : List Char) : Bool :=
  match splitAtFirst (fun c => c = '.') l with
  | (ip, none) => !ip.isEmpty && allDigits ip
  | (ip, some fp) => allDigits ip && allDigits fp && (!ip.isEmpty || !fp.isEmpty)

/-- The optional exponent of a Python float literal: an optional sign and
at least one digit. -/
def expOk : Option (List Char) → Bool
  | none => true
  | some l =>
    let l2 := match l with
      | c :: rest => if c = '+' || c = '-' then rest else l
      | [] => l
    !l2.isEmpty && allDigits l2

/-- The numeric branch of Python's float grammar, after underscores have
been removed. -/
def numGrammar (l : List Char) : Bool :=
  match splitAtFirst (fun c => c = 'e' || c = 'E') l with
  | (m, eo) => mantOk m && expOk eo

/-- The case-insensitive infinity/NaN spellings accepted by Python's
`float` (after the optional sign). -/
def isInfNanCore (l : List Char) : Bool :=
  l.map Char.toLower = "inf".data ||
  l.map Char.toLower = "infinity".data ||
  l.map Char.toLower = "nan".data

/-- Whether Python's `float(...)` accepts the string (i.e. does not raise
`ValueError`).  Note that it accepts `inf`, `infinity` and `nan`
spellings, so acceptance does not imply a finite value. -/
def pyFloatAccepts (l : List Char) : Bool :=
  let t := stripWs l
  let core := match t with
    | c :: rest => if c = '+' || c = '-' then rest else t
    | [] => t
  isInfNanCore core ||
    (underscoresOk core && numGrammar (core.filter (fun c => c ≠ '_')))

/-! ### The regex search `(\d{2})\.(\d{2})\.(\d{2})\s+(\d{2}:\d{2}:\d{2})`

`re.search` tries each start position from the left; at a fixed start the
pattern is deterministic (`\s+` is greedy and `\s`/`\d` are disjoint, so
no backtracking can change the outcome).  The time group `HH:MM:SS` is
returned as its three two-digit components. -/

/-- Match exactly two digits at the head, returning them and the rest. -/
def parse2Digits : List Char → Option (List Char × List Char)
  | a :: b :: rest => if a.isDigit && b.isDigit then some ([a, b], rest) else none
  | _ => none

/-- Expect a fixed character at the head. -/
def expectChar (c : Char) : List Char → Option (List Char)
  | x :: rest => if x = c then some rest else none
  | [] => none

/-- Groups captured by the date/time regex: day, month, two-digit year,
hour, minute, second (each a two-digit character list). -/
structure DateGroups where
  day : List Char
  month : List Char
  year : List Char
  hh : List Char
  mi : List Char
  ss : List Char
deriving DecidableEq

/-- Match `\d{2}:\d{2}:\d{2}` at the head. -/
def parseTimeG (l : List Char) : Option (List Char × List Char × List Char) :=
  match parse2Digits l with
  | none => none
  | some (h, r1) =>
    match expectChar ':' r1 with
    | none => none
    | some r2 =>
      match parse2Digits r2 with
      | none => none
      | some (m, r3) =>
        match expectChar ':' r3 with
        | none => none
        | some r4 =>
          match parse2Digits r4 with
          | none => none
          | some (s, _) => some (h, m, s)

/-- Attempt the full pattern anchored at the head of `l`. -/
def matchDateAt (l : List Char) : Option DateGroups :=
  match parse2Digits l with
  | none => none
  | some (d, r1) =>
    match expectChar '.' r1 with
    | none => none
    | some r2 =>
      match parse2Digits r2 with
      | none => none
      | some (m, r3) =>
        match expectChar '.' r3 with
        | none => none
        | some r4 =>
          match parse2Digits r4 with
          | none => none
          | some (y, r5) =>
            if (r5.takeWhile pySpace).isEmpty then none
            else
              match parseTimeG (r5.dropWhile pySpace) with
              | none => none
              | some (h, m2, s) => some ⟨d, m, y, h, m2, s⟩

/-- `re.search`: try each start position from the left. -/
def searchDate : List Char → Option DateGroups
  | [] => none
  | c :: rest =>
    match matchDateAt (c :: rest) with
    | some g => some g
    | none => searchDate rest

/-! ### Calendar validation (the `ciso8601.parse_datetime` branch) -/

/-- Numeric value of a two-digit group. -/
def toNat2 : List Char → Nat
  | [a, b] => (a.toNat - 48) * 10 + (b.toNat - 48)
  | _ => 0

/-- Gregorian leap-year test. -/
def isLeap (y : Nat) : Bool := (y % 4 = 0 && y % 100 ≠ 0) || y % 400 = 0

/-- Days in a month of a given year. -/
def daysInMonth (y m : Nat) : Nat :=
  if m = 2 then (if isLeap y then 29 else 28)
  else if m = 4 || m = 6 || m = 9 || m = 11 then 30
  else 31

/-- Whether `ciso8601.parse_datetime` accepts the components of the
constructed `20YY-MM-DD HH:MM:SS` string: month, day and time-of-day must
be in calendar range (otherwise it raises `ValueError`, which the source's
`except` clause turns into a rejection). -/
def validDateTime (d m y hh mi ss : Nat) : Bool :=
  1 ≤ m && m ≤ 12 && 1 ≤ d && d ≤ daysInMonth (2000 + y) m &&
    hh < 24 && mi < 60 && ss < 60

/-! ### The normalizer -/

/-- The exceptions relevant to `transform_timestamp_fast`'s body. -/
inductive PyErr where
  | valueError
deriving DecidableEq

/-- The canonical output built by the source:
`f"20{year}-{month}-{day} {time_part},{raw_freq}\n"`.  In the ciso8601
branch the string is re-rendered via `strftime('%Y-%m-%d %H:%M:%S')`,
which reproduces exactly these characters because every component is
already two digits wide. -/
def mkOutput (g : DateGroups) (freq : List Char) : List Char :=
  '2' :: '0' :: (g.year ++ '-' :: (g.month ++ '-' :: (g.day ++ ' ' ::
    (g.hh ++ ':' :: (g.mi ++ ':' :: (g.ss ++ ',' :: (freq ++ ['\n'])))))))

/-- The body of `transform_timestamp_fast` with explicit exceptions:
`float(raw_freq)` raising `ValueError`, and (in the ciso8601 branch)
`ciso8601.parse_datetime` raising `ValueError` on an out-of-range
date/time, are surfaced as `Except.error`.  The `None` returns of the
source (too few fields, no regex match) are ordinary `Except.ok none`. -/
def transformExc (ciso : Bool) (line : List Char) : Except PyErr (Option (List Char)) :=
  match splitSemi (dropTrailing (fun c => c = '\n') line) with
  | c0 :: c1 :: _ =>
    if pyFloatAccepts ((stripQuote (stripWs c1)).map commaToDot) then
      match searchDate (stripQuote (stripWs c0)) with
      | some g =>
        if ciso then
          if validDateTime (toNat2 g.day) (toNat2 g.month) (toNat2 g.year)
              (toNat2 g.hh) (toNat2 g.mi) (toNat2 g.ss) then
            .ok (some (mkOutput g ((stripQuote (stripWs c1)).map commaToDot)))
          else .error .valueError
        else .ok (some (mkOutput g ((stripQuote (stripWs c1)).map commaToDot)))
      | none => .ok none
    else .error .valueError
  | _ => .ok none

/-- `transform_timestamp_fast` itself: the source wraps its body in
`try/except`, turning every raised `ValueError`/`IndexError`/`Exception`
into a `None` return.  `ciso` says whether the optional ciso8601 parser
is importable. -/
def transform_timestamp_fast (ciso : Bool) (line : List Char) : Option (List Char) :=
  match transformExc ciso line with
  | .ok r => r
  | .error _ => none

/-! ### The sink model

The sink (PostgreSQL + TimescaleDB) is external to the repository; the
SQL statements issued by the source are modelled by their standard
semantics over an explicit state: a `COPY` into a table with a primary
key raises a unique violation when any incoming key collides (with an
existing row or within the batch), while `INSERT ... ON CONFLICT
(timestamp) DO NOTHING` silently drops colliding rows. -/

/-- A sink row: (timestamp text, value text) keyed by the timestamp. -/
abbrev Row := List Char × List Char

/-- The sink-side state of the target relation. -/
structure DBState where
  tableExists : Bool
  isHypertable : Bool
  rows : List Row
deriving DecidableEq

/-- The schema/load statements the two entry points issue, for tracing
which runs drop the relation. -/
inductive SqlOp where
  | dropTable
  | createTable
  | createHypertable
  | truncate
  | copyLoad
  | insertOnConflict
deriving DecidableEq

/-- `ensure_table_and_hypertable` (src/ingestion_perf.py): create the
table if absent, convert to a hypertable if not yet one, and truncate
when `clear_data` is set.  Returns the new state and the trace of
destructive/DDL statements issued. -/
def ensure_table_and_hypertable (st : DBState) (clear_data : Bool) :
    DBState × List SqlOp :=
  let (st1, ops1) :=
    if st.tableExists then (st, ([] : List SqlOp))
    else ({ st with tableExists := true, rows := [] }, [SqlOp.createTable])
  let (st2, ops2) :=
    if st1.isHypertable then (st1, ([] : List SqlOp))
    else ({ st1 with isHypertable := true }, [SqlOp.createHypertable])
  let (st3, ops3) :=
    if clear_data then ({ st2 with rows := [] }, [SqlOp.truncate])
    else (st2, ([] : List SqlOp))
  (st3, ops1 ++ ops2 ++ ops3)

/-- `INSERT ... ON CONFLICT (timestamp) DO NOTHING` over a batch: each
incoming row is appended unless its timestamp is already present
(first-writer-wins, also within the batch). -/
def dedupInsert (existing incoming : List Row) : List Row :=
  incoming.foldl
    (fun acc r => if acc.any (fun x => x.1 = r.1) then acc else acc ++ [r])
    existing

/-- The schema and load phases of `ingest_data` (src/ingestion.py): the
table is dropped (when it exists) and recreated unconditionally, the
hypertable conversion is re-applied, and the parsed rows are inserted
with `ON CONFLICT (timestamp) DO NOTHING`.  The pandas read/parse phase
is deterministic for a fixed input file and is abstracted as the
`parsedRows` parameter. -/
def ingest_data_model (parsedRows : List Row) (st : DBState) :
    DBState × List SqlOp :=
  let dropOps := if st.tableExists then [SqlOp.dropTable] else ([] : List SqlOp)
  let st1 : DBState := { tableExists := true, isHypertable := true, rows := [] }
  let final : DBState := { st1 with rows := dedupInsert [] parsedRows }
  (final, dropOps ++ [SqlOp.createTable, SqlOp.createHypertable, SqlOp.insertOnConflict])

/-- One line of the `COPY` payload, parsed by the sink's csv reader:
the text before the first comma and the text after it (the trailing
newline is the row separator). -/
def parseCopyLine (l : List Char) : Row :=
  (l.takeWhile (fun c => c ≠ ','),
   dropTrailing (fun c => c = '\n') ((l.dropWhile (fun c => c ≠ ',')).drop 1))

/-- `COPY table (timestamp, frequency) FROM STDIN`: all rows are inserted,
or the whole statement fails with a unique violation when any incoming
timestamp collides with an existing row or with another incoming row
(plain `COPY` has no conflict handling). -/
def copy_load (st : DBState) (payload : List (List Char)) : Option DBState :=
  if ((payload.map parseCopyLine).map Prod.fst).Nodup ∧
      ∀ r ∈ payload.map parseCopyLine, ∀ x ∈ st.rows, r.1 ≠ x.1 then
    some { st with rows := st.rows ++ payload.map parseCopyLine }
  else none

/-! ### Connection acquisition -/

/-- `get_db_connection` (src/database.py): a single `psycopg2.connect`
attempt; `OperationalError` is caught and `None` returned.  The oracle
says which attempt indices would succeed; only index 0 is ever tried. -/
def get_db_connection (oracle : Nat → Bool) : Option Unit :=
  if oracle 0 then some () else none

/-- First succeeding attempt index among `fuel` tries starting at
`start`. -/
def firstSuccess (oracle : Nat → Bool) (start : Nat) : Nat → Option Nat
  | 0 => none
  | n + 1 => if oracle start then some start else firstSuccess oracle (start + 1) n

/-- `get_async_db_pool` (src/main.py, the query service): up to
`retries = 5` attempts with a fixed 5-second delay; the index of the
first successful attempt is returned, and exhausting all 5 re-raises
(`none`). -/
def get_async_db_pool (oracle : Nat → Bool) : Option Nat :=
  firstSuccess oracle 0 5

/-! ### The parallel ingestion pipeline -/

/-- Observable outcome of one `ingest_parallel` run: final sink state,
whether the run ended in a fatal error path, the accepted/rejected
counters, and the trace of schema/load statements issued. -/
structure RunOutcome where
  db : DBState
  fatal : Bool
  cleanedCount : Nat
  skippedCount : Nat
  ops : List SqlOp
deriving DecidableEq

/-- `ingest_parallel` (src/ingestion_perf.py) given the result list the
pool's `imap_unordered` iterator delivered (`collected` is a permutation
of the per-line transform results; its length equals `total_rows`).
The source hardcodes `clear_data=True`, computes
`cleaned_lines`/`cleaned_count`/`skipped_count` by filtering the `None`
results, and streams the survivors through one `COPY`; a `COPY` failure
is caught, rolled back, and leaves the (already committed) truncated
state. -/
def ingest_parallel_model (collected : List (Option (List Char)))
    (oracle : Nat → Bool) (st : DBState) : RunOutcome :=
  match get_db_connection oracle with
  | none => ⟨st, true, 0, 0, []⟩
  | some _ =>
    let pr := ensure_table_and_hypertable st true
    if collected.length = 0 then ⟨pr.1, false, 0, 0, pr.2⟩
    else
      match copy_load pr.1 (collected.filterMap id) with
      | some st2 =>
        ⟨st2, false, (collected.filterMap id).length,
          collected.length - (collected.filterMap id).length,
          pr.2 ++ [SqlOp.copyLoad]⟩
      | none =>
        ⟨pr.1, true, (collected.filterMap id).length,
          collected.length - (collected.filterMap id).length, pr.2⟩

/-- `ingest_parallel` end to end on a source file (header line included):
the header is discarded, each data line is transformed, and the results
are collected in input order (the pool-size-1 / sequential order). -/
def ingest_parallel_run (ciso : Bool) (oracle : Nat → Bool)
    (fileLines : List (List Char)) (st : DBState) : RunOutcome :=
  ingest_parallel_model ((fileLines.drop 1).map (transform_timestamp_fast ciso))
    oracle st

/-! ### The query service read endpoints -/

/-- A stored measurement as the query service sees it: timestamp (seconds
since some epoch) and value (exact rational stand-in for the double). -/
abbrev QRow := Nat × ℚ

/-- Insert into a list sorted by timestamp. -/
def insertByTs (r : QRow) : List QRow → List QRow
  | [] => [r]
  | x :: xs => if r.1 ≤ x.1 then r :: x :: xs else x :: insertByTs r xs

/-- Sort rows ascending by timestamp (`ORDER BY timestamp`). -/
def sortByTs (l : List QRow) : List QRow := l.foldr insertByTs []

/-- `WHERE timestamp >= start AND timestamp <= end` with
`ORDER BY timestamp`. -/
def rowsInRange (rows : List QRow) (s e : Nat) : List QRow :=
  sortByTs (rows.filter (fun r => s ≤ r.1 && r.1 ≤ e))

/-- `get_raw_data` (src/main.py): fetch the rows in range; an empty
result raises HTTP 404, otherwise the rows are returned. -/
def get_raw_data (rows : List QRow) (s e : Nat) : Except Nat (List QRow) :=
  let recs := rowsInRange rows s e
  if recs.isEmpty then .error 404 else .ok recs

/-- `time_bucket(resolution, timestamp)`: floor the timestamp to a
multiple of the resolution. -/
def bucketOf (res t : Nat) : Nat := t / res * res

/-- Insert into a sorted list of bucket keys. -/
def insertNat (n : Nat) : List Nat → List Nat
  | [] => [n]
  | x :: xs => if n ≤ x then n :: x :: xs else x :: insertNat n xs

/-- Sort bucket keys ascending (`ORDER BY bucket`). -/
def sortNat (l : List Nat) : List Nat := l.foldr insertNat []

/-- `get_aggregated_data` (src/main.py): bucket the rows in range, take
the average value per bucket (`GROUP BY bucket ORDER BY bucket`); an
empty result raises HTTP 404. -/
def get_aggregated_data (rows : List QRow) (s e res : Nat) :
    Except Nat (List QRow) :=
  let f := rowsInRange rows s e
  let keys := sortNat ((f.map (fun r => bucketOf res r.1)).dedup)
  let recs := keys.map (fun k =>
    let vs := (f.filter (fun r => bucketOf res r.1 = k)).map Prod.snd
    (k, vs.sum / (vs.length : ℚ)))
  if recs.isEmpty then .error 404 else .ok recs

/-! ### Spec-side interpretations -/

/-- Numeric value of a digit string (most significant first). -/
def digitsToNat (l : List Char) : Nat :=
  l.foldl (fun acc c => acc * 10 + (c.toNat - 48)) 0

/-- Modelled from the spec: the exact numeric reading of a finite
decimal value text (optional sign, digits, optional fractional part) —
the reading under which the spec's expected rows carry the values `50.0`
and `50.5`.  Non-finite spellings such as `inf`/`nan` have no finite
decimal reading and yield `none`. -/
def specDecimalValue (l : List Char) : Option ℚ :=
  let sgnRest : ℚ × List Char :=
    match l with
    | '-' :: r => (-1, r)
    | '+' :: r => (1, r)
    | _ => (1, l)
  match splitAtFirst (fun c => c = '.') sgnRest.2 with
  | (ip, none) =>
    if !ip.isEmpty && allDigits ip then some (sgnRest.1 * (digitsToNat ip : ℚ))
    else none
  | (ip, some fp) =>
    if allDigits ip && allDigits fp && (!ip.isEmpty || !fp.isEmpty) then
      some (sgnRest.1 * ((digitsToNat ip : ℚ) + (digitsToNat fp : ℚ) / (10 ^ fp.length : ℚ)))
    else none

/-! ### Structural lemmas about the string utilities -/

theorem mem_splitSemi_no_semi :
    ∀ (l g : List Char), g ∈ splitSemi l → ';' ∉ g := by
  intro l
  induction l with
  | nil =>
    intro g hg
    simp only [splitSemi, List.mem_singleton] at hg
    subst hg; simp
  | cons c rest ih =>
    intro g hg
    by_cases hc : c = ';'
    · subst hc
      simp only [splitSemi, if_true, List.mem_cons] at hg
      cases hg with
      | inl h => subst h; simp
      | inr h => exact ih g h
    · cases hsr : splitSemi rest with
      | nil =>
        simp only [splitSemi, if_neg hc, hsr, List.mem_singleton] at hg
        subst hg
        intro hmem
        cases List.mem_singleton.mp hmem
        exact hc rfl
      | cons h t =>
        simp only [splitSemi, if_neg hc, hsr, List.mem_cons] at hg
        cases hg with
        | inl hgh =>
          subst hgh
          intro hmem
          cases List.mem_cons.mp hmem with
          | inl h1 => exact hc h1.symm
          | inr h2 => exact ih h (by rw [hsr]; exact List.mem_cons_self _ _) h2
        | inr hgt => exact ih g (by rw [hsr]; exact List.mem_cons_of_mem _ hgt)

theorem splitSemi_of_no_semi :
    ∀ l : List Char, ';' ∉ l → splitSemi l = [l] := by
  intro l
  induction l with
  | nil => intro _; rfl
  | cons c rest ih =>
    intro h
    have hc : ¬ c = ';' := fun e => h (by rw [e]; exact List.mem_cons_self _ _)
    have hr : ';' ∉ rest := fun hm => h (List.mem_cons_of_mem _ hm)
    simp only [splitSemi, if_neg hc, ih hr]

theorem mem_of_mem_dropTrailing {p : Char → Bool} {l : List Char} {c : Char}
    (h : c ∈ dropTrailing p l) : c ∈ l := by
  unfold dropTrailing at h
  rw [List.mem_reverse] at h
  have := (List.dropWhile_sublist (p := p) (l := l.reverse)).subset h
  rwa [List.mem_reverse] at this

theorem mem_of_mem_stripPy {p : Char → Bool} {l : List Char} {c : Char}
    (h : c ∈ stripPy p l) : c ∈ l := by
  unfold stripPy at h
  exact (List.dropWhile_sublist (p := p) (l := l)).subset (mem_of_mem_dropTrailing h)

theorem no_semi_map_commaToDot {l : List Char} (h : ';' ∉ l) :
    ';' ∉ l.map commaToDot := by
  intro hm
  rcases List.mem_map.mp hm with ⟨a, ha, hac⟩
  unfold commaToDot at hac
  by_cases hcomma : a = ','
  · rw [if_pos hcomma] at hac; exact absurd hac (by decide)
  · rw [if_neg hcomma] at hac; subst hac; exact h ha

/-- A character list of digits contains no semicolon. -/
theorem not_semi_of_digits {g : List Char} (h : allDigits g = true) : ';' ∉ g := by
  intro hm
  have := List.all_eq_true.mp h ';' hm
  exact absurd this (by decide)

/-! ### The captured regex groups are digit strings -/

theorem parse2Digits_digits {l g r : List Char}
    (h : parse2Digits l = some (g, r)) : allDigits g = true := by
  cases l with
  | nil => exact absurd h (by simp [parse2Digits])
  | cons a t =>
    cases t with
    | nil => exact absurd h (by simp [parse2Digits])
    | cons b rest =>
      have hun : parse2Digits (a :: b :: rest)
          = if (a.isDigit && b.isDigit) = true then some ([a, b], rest) else none := rfl
      rw [hun] at h
      by_cases hd : (a.isDigit && b.isDigit) = true
      · rw [if_pos hd] at h
        simp only [Option.some.injEq, Prod.mk.injEq] at h
        obtain ⟨hg, -⟩ := h
        subst hg
        simpa [allDigits] using hd
      · rw [if_neg hd] at h
        exact absurd h (by simp)

theorem parseTimeG_digits {l : List Char} {h m s : List Char}
    (hp : parseTimeG l = some (h, m, s)) :
    allDigits h = true ∧ allDigits m = true ∧ allDigits s = true := by
  unfold parseTimeG at hp
  split at hp
  · exact absurd hp (by simp)
  next h1 r1 heq1 =>
    split at hp
    · exact absurd hp (by simp)
    next r2 heq2 =>
      split at hp
      · exact absurd hp (by simp)
      next m1 r3 heq3 =>
        split at hp
        · exact absurd hp (by simp)
        next r4 heq4 =>
          split at hp
          · exact absurd hp (by simp)
          next s1 r5 heq5 =>
            simp only [Option.some.injEq, Prod.mk.injEq] at hp
            obtain ⟨rfl, rfl, rfl⟩ := hp
            exact ⟨parse2Digits_digits heq1, parse2Digits_digits heq3,
              parse2Digits_digits heq5⟩

theorem matchDateAt_digits {l : List Char} {g : DateGroups}
    (hm : matchDateAt l = some g) :
    allDigits g.day = true ∧ allDigits g.month = true ∧ allDigits g.year = true ∧
      allDigits g.hh = true ∧ allDigits g.mi = true ∧ allDigits g.ss = true := by
  unfold matchDateAt at hm
  split at hm
  · exact absurd hm (by simp)
  next d r1 heq1 =>
    split at hm
    · exact absurd hm (by simp)
    next r2 heq2 =>
      split at hm
      · exact absurd hm (by simp)
      next m r3 heq3 =>
        split at hm
        · exact absurd hm (by simp)
        next r4 heq4 =>
          split at hm
          · exact absurd hm (by simp)
          next y r5 heq5 =>
            split at hm
            · exact absurd hm (by simp)
            · split at hm
              · exact absurd hm (by simp)
              next h m2 s heq6 =>
                cases Option.some.inj hm
                obtain ⟨t1, t2, t3⟩ := parseTimeG_digits heq6
                exact ⟨parse2Digits_digits heq1, parse2Digits_digits heq3,
                  parse2Digits_digits heq5, t1, t2, t3⟩

theorem searchDate_digits :
    ∀ {l : List Char} {g : DateGroups}, searchDate l = some g →
      allDigits g.day = true ∧ allDigits g.month = true ∧ allDigits g.year = true ∧
        allDigits g.hh = true ∧ allDigits g.mi = true ∧ allDigits g.ss = true := by
  intro l
  induction l with
  | nil => intro g h; exact absurd h (by simp [searchDate])
  | cons c rest ih =>
    intro g h
    unfold searchDate at h
    split at h
    next g' heq =>
      rcases Option.some.inj h with rfl
      exact matchDateAt_digits heq
    · exact ih h

/-! ### Inversion of a successful normalization -/

/-- Every accepted line produces exactly the canonical rendering
`mkOutput`: two-digit digit groups, a value text that passed the float
check (and contains no semicolon), and — when the ciso8601 parser is in
use — calendar-valid components. -/
theorem transform_some_inv {b : Bool} {l o : List Char}
    (h : transform_timestamp_fast b l = some o) :
    ∃ (g : DateGroups) (freq : List Char),
      o = mkOutput g freq ∧
      allDigits g.day = true ∧ allDigits g.month = true ∧ allDigits g.year = true ∧
      allDigits g.hh = true ∧ allDigits g.mi = true ∧ allDigits g.ss = true ∧
      pyFloatAccepts freq = true ∧ ';' ∉ freq ∧
      (b = true → validDateTime (toNat2 g.day) (toNat2 g.month) (toNat2 g.year)
        (toNat2 g.hh) (toNat2 g.mi) (toNat2 g.ss) = true) := by
  unfold transform_timestamp_fast at h
  cases htr : transformExc b l with
  | error e => rw [htr] at h; exact absurd h (by simp)
  | ok r =>
    rw [htr] at h
    simp only [] at h
    subst h
    unfold transformExc at htr
    split at htr
    next c0 c1 rest hsp =>
      have hc1 : c1 ∈ splitSemi (dropTrailing (fun c => c = '\n') l) := by
        rw [hsp]; exact List.mem_cons_of_mem _ (List.mem_cons_self _ _)
      have hsemi : ';' ∉ (stripQuote (stripWs c1)).map commaToDot := by
        apply no_semi_map_commaToDot
        intro hmem
        exact mem_splitSemi_no_semi _ _ hc1
          (mem_of_mem_stripPy (mem_of_mem_stripPy hmem))
      split at htr
      next hfl =>
        split at htr
        next g hsd =>
          obtain ⟨hd, hm, hy, hhh, hmi, hss⟩ := searchDate_digits hsd
          split at htr
          next hciso =>
            split at htr
            next hval =>
              simp only [Except.ok.injEq, Option.some.injEq] at htr
              subst htr
              exact ⟨g, _, rfl, hd, hm, hy, hhh, hmi, hss, hfl, hsemi,
                fun _ => hval⟩
            next hval => exact absurd htr (by simp)
          next hciso =>
            simp only [Except.ok.injEq, Option.some.injEq] at htr
            subst htr
            exact ⟨g, _, rfl, hd, hm, hy, hhh, hmi, hss, hfl, hsemi,
              fun hb => absurd hb hciso⟩
        next hsd => exact absurd htr (by simp)
      next hfl => exact absurd htr (by simp)
    next hsp => exact absurd htr (by simp)

/-- The canonical output contains no semicolon (its date/time fragments
are digits and fixed punctuation, and its value text has none). -/
theorem no_semi_mkOutput {g : DateGroups} {freq : List Char}
    (hd : allDigits g.day = true) (hm : allDigits g.month = true)
    (hy : allDigits g.year = true) (hhh : allDigits g.hh = true)
    (hmi : allDigits g.mi = true) (hss : allDigits g.ss = true)
    (hf : ';' ∉ freq) : ';' ∉ mkOutput g freq := by
  intro hmem
  unfold mkOutput at hmem
  simp only [List.mem_cons, List.mem_append, List.mem_singleton] at hmem
  rcases hmem with h | h | h | h | h | h | h | h | h | h | h | h | h | h | h | h
  · exact absurd h (by decide)
  · exact absurd h (by decide)
  · exact not_semi_of_digits hy h
  · exact absurd h (by decide)
  · exact not_semi_of_digits hm h
  · exact absurd h (by decide)
  · exact not_semi_of_digits hd h
  · exact absurd h (by decide)
  · exact not_semi_of_digits hhh h
  · exact absurd h (by decide)
  · exact not_semi_of_digits hmi h
  · exact absurd h (by decide)
  · exact not_semi_of_digits hss h
  · exact absurd h (by decide)
  · exact hf h
  · exact absurd h (by decide)

/-! ### Counting lemmas for the coordinator -/

theorem length_filterMap_id (l : List (Option (List Char))) :
    (l.filterMap id).length = l.countP (fun o => o.isSome) := by
  induction l with
  | nil => rfl
  | cons a t ih =>
    cases a <;> simp [List.filterMap_cons, List.countP_cons, ih]

theorem countP_some_add_none (l : List (Option (List Char))) :
    l.countP (fun o => o.isSome) + l.countP (fun o => o.isNone) = l.length := by
  induction l with
  | nil => rfl
  | cons a t ih => cases a <;> simp [List.countP_cons] <;> omega

/-! ### The schema preparer's state and trace -/

theorem ensure_true_const (st : DBState) :
    (ensure_table_and_hypertable st true).1 = ⟨true, true, []⟩ := by
  obtain ⟨te, ihy, rs⟩ := st
  cases te <;> cases ihy <;> rfl

theorem ensure_ops_no_drop (st : DBState) (c : Bool) :
    SqlOp.dropTable ∉ (ensure_table_and_hypertable st c).2 := by
  obtain ⟨te, ihy, rs⟩ := st
  cases te <;> cases ihy <;> cases c <;> simp [ensure_table_and_hypertable]

theorem ensure_keeps_table (st : DBState) (c : Bool)
    (h : st.tableExists = true) :
    ((ensure_table_and_hypertable st c).1).tableExists = true := by
  obtain ⟨te, ihy, rs⟩ := st
  cases ihy <;> cases c <;> simp_all [ensure_table_and_hypertable]

/-! ### First-writer-wins insertion -/

theorem dedupInsert_fst_nodup :
    ∀ (incoming existing : List Row), (existing.map Prod.fst).Nodup →
      ((dedupInsert existing incoming).map Prod.fst).Nodup := by
  intro incoming
  induction incoming with
  | nil => intro ex h; exact h
  | cons r t ih =>
    intro ex h
    have hstep : dedupInsert ex (r :: t)
        = dedupInsert (if ex.any (fun x => x.1 = r.1) then ex else ex ++ [r]) t := rfl
    rw [hstep]
    by_cases hmem : ex.any (fun x => x.1 = r.1) = true
    · rw [if_pos hmem]; exact ih ex h
    · rw [if_neg hmem]
      apply ih
      rw [List.map_append]
      rw [List.nodup_append]
      refine ⟨h, List.nodup_singleton _, ?_⟩
      intro a ha hb
      rcases List.mem_map.mp ha with ⟨x, hx, hax⟩
      rcases List.mem_singleton.mp hb with rfl
      rw [List.any_eq_true] at hmem
      exact hmem ⟨x, hx, by simp [hax]⟩

/-! ### The bulk copy is insensitive to collection order -/

theorem copy_load_cond_iff {st : DBState} {p1 p2 : List (List Char)}
    (h : p1.Perm p2) :
    (((p1.map parseCopyLine).map Prod.fst).Nodup ∧
        ∀ r ∈ p1.map parseCopyLine, ∀ x ∈ st.rows, r.1 ≠ x.1) ↔
      (((p2.map parseCopyLine).map Prod.fst).Nodup ∧
        ∀ r ∈ p2.map parseCopyLine, ∀ x ∈ st.rows, r.1 ≠ x.1) := by
  have hp := h.map parseCopyLine
  constructor
  · rintro ⟨h1, h2⟩
    exact ⟨((hp.map Prod.fst).nodup_iff).mp h1,
      fun r hr => h2 r (hp.mem_iff.mpr hr)⟩
  · rintro ⟨h1, h2⟩
    exact ⟨((hp.map Prod.fst).nodup_iff).mpr h1,
      fun r hr => h2 r (hp.mem_iff.mp hr)⟩

theorem copy_load_perm (st : DBState) {p1 p2 : List (List Char)}
    (h : p1.Perm p2) :
    (copy_load st p1 = none ∧ copy_load st p2 = none) ∨
      ∃ s1 s2, copy_load st p1 = some s1 ∧ copy_load st p2 = some s2 ∧
        s1.rows.Perm s2.rows ∧ s1.tableExists = s2.tableExists ∧
        s1.isHypertable = s2.isHypertable := by
  by_cases hc : ((p1.map parseCopyLine).map Prod.fst).Nodup ∧
      ∀ r ∈ p1.map parseCopyLine, ∀ x ∈ st.rows, r.1 ≠ x.1
  · right
    have hc2 := (copy_load_cond_iff h).mp hc
    refine ⟨{ st with rows := st.rows ++ p1.map parseCopyLine },
      { st with rows := st.rows ++ p2.map parseCopyLine }, ?_, ?_, ?_, rfl, rfl⟩
    · unfold copy_load; rw [if_pos hc]
    · unfold copy_load; rw [if_pos hc2]
    · exact (h.map parseCopyLine).append_left st.rows
  · left
    have hc2 : ¬ (((p2.map parseCopyLine).map Prod.fst).Nodup ∧
        ∀ r ∈ p2.map parseCopyLine, ∀ x ∈ st.rows, r.1 ≠ x.1) :=
      fun c => hc ((copy_load_cond_iff h).mpr c)
    constructor
    · unfold copy_load; rw [if_neg hc]
    · unfold copy_load; rw [if_neg hc2]

/-! ### The pipeline's sink state depends only on the collected results -/

theorem ingest_parallel_model_db_indep (c : List (Option (List Char)))
    (oracle : Nat → Bool) (h : oracle 0 = true) (st st' : DBState) :
    (ingest_parallel_model c oracle st).db
      = (ingest_parallel_model c oracle st').db := by
  unfold ingest_parallel_model get_db_connection
  rw [if_pos h]
  simp only [ensure_true_const]
  by_cases hl : c.length = 0
  · simp [hl]
  · simp only [hl, if_false]
    cases hcopy : copy_load ⟨true, true, []⟩ (c.filterMap id) <;> simp [hcopy]

/-! ### The retry loop of the query service's pool acquisition -/

theorem firstSuccess_isSome (oracle : Nat → Bool) :
    ∀ (fuel start : Nat),
      (firstSuccess oracle start fuel).isSome = true ↔
        ∃ i, i < fuel ∧ oracle (start + i) = true := by
  intro fuel
  induction fuel with
  | zero => intro start; simp [firstSuccess]
  | succ n ih =>
    intro start
    unfold firstSuccess
    by_cases ho : oracle start = true
    · rw [if_pos ho]
      simp only [Option.isSome_some, true_iff]
      exact ⟨0, by omega, by simpa using ho⟩
    · rw [if_neg ho]
      rw [ih (start + 1)]
      constructor
      · rintro ⟨i, hi, hoi⟩
        exact ⟨i + 1, by omega, by rwa [show start + (i + 1) = start + 1 + i by omega]⟩
      · rintro ⟨i, hi, hoi⟩
        cases i with
        | zero => rw [Nat.add_zero] at hoi; exact absurd hoi ho
        | succ j =>
          exact ⟨j, by omega, by rwa [show start + 1 + j = start + (j + 1) by omega]⟩

/-! ### Emptiness of the sorted query results -/

theorem insertByTs_ne_nil (r : QRow) (l : List QRow) : insertByTs r l ≠ [] := by
  cases l with
  | nil => simp [insertByTs]
  | cons x xs => unfold insertByTs; split <;> simp

theorem sortByTs_eq_nil_iff (l : List QRow) : sortByTs l = [] ↔ l = [] := by
  cases l with
  | nil => simp [sortByTs]
  | cons x xs =>
    simp only [sortByTs, List.foldr_cons]
    constructor
    · intro h; exact absurd h (insertByTs_ne_nil _ _)
    · intro h; cases h

theorem insertNat_ne_nil (n : Nat) (l : List Nat) : insertNat n l ≠ [] := by
  cases l with
  | nil => simp [insertNat]
  | cons x xs => unfold insertNat; split <;> simp

theorem sortNat_eq_nil_iff (l : List Nat) : sortNat l = [] ↔ l = [] := by
  cases l with
  | nil => simp [sortNat]
  | cons x xs =>
    simp only [sortNat, List.foldr_cons]
    constructor
    · intro h; exact absurd h (insertNat_ne_nil _ _)
    · intro h; cases h

/-! ## Claim theorems -/

/-- C1, counterexample: the claim says duplicate timestamps are conflicts
to be ignored rather than errors for every bulk load; but the `COPY`-based
parallel entry point, fed a file whose two data lines normalize to the
same timestamp, ends in the fatal error path and leaves the (truncated)
relation empty instead of keeping the first row. -/
theorem C1_reingestion_counterexample :
    (ingest_parallel_run true (fun _ => true)
        ["header".data, "Sa. 01.05.21 00:00:00;50".data,
          "So. 01.05.21 00:00:00;51".data]
        ⟨false, false, []⟩).fatal = true ∧
    (ingest_parallel_run true (fun _ => true)
        ["header".data, "Sa. 01.05.21 00:00:00;50".data,
          "So. 01.05.21 00:00:00;51".data]
        ⟨false, false, []⟩).db.rows = [] := by decide

/-- C1 (amended): `ingest_data`'s insert suppresses duplicate timestamps
(first-writer-wins) and re-running it yields the same rows; re-running the
parallel entry point also yields the same rows — but via its unconditional
drop (resp. truncate) of the relation, not via conflict suppression, and
its `COPY` treats duplicate timestamps as fatal. -/
theorem C1_reingestion_amended :
    (∀ (parsedRows : List Row) (st : DBState),
        (ingest_data_model parsedRows (ingest_data_model parsedRows st).1).1.rows
          = (ingest_data_model parsedRows st).1.rows) ∧
    (∀ (parsedRows : List Row) (st : DBState),
        (((ingest_data_model parsedRows st).1.rows.map Prod.fst).Nodup)) ∧
    (∀ (ciso : Bool) (oracle : Nat → Bool) (fileLines : List (List Char))
        (st : DBState),
        (ingest_parallel_run ciso oracle fileLines
            ((ingest_parallel_run ciso oracle fileLines st).db)).db.rows
          = (ingest_parallel_run ciso oracle fileLines st).db.rows) := by
  refine ⟨?_, ?_, ?_⟩
  · intro rows st; rfl
  · intro rows st
    exact dedupInsert_fst_nodup rows [] (by simp)
  · intro ciso oracle fileLines st
    cases horacle : oracle 0 with
    | false =>
      simp [ingest_parallel_run, ingest_parallel_model, get_db_connection, horacle]
    | true =>
      exact congrArg DBState.rows
        (ingest_parallel_model_db_indep _ oracle horacle _ _)

/-- C2: after a transform phase that runs (connection obtained), the
accepted count plus the rejected count equals the number of data lines
(lines after the header), and the rejected count is exactly the number of
`None` results — every line yields exactly one result. -/
theorem C2_line_conservation :
    ∀ (ciso : Bool) (oracle : Nat → Bool) (fileLines : List (List Char))
      (st : DBState) (collected : List (Option (List Char))),
      collected.Perm ((fileLines.drop 1).map (transform_timestamp_fast ciso)) →
      oracle 0 = true →
      (ingest_parallel_model collected oracle st).cleanedCount
          + (ingest_parallel_model collected oracle st).skippedCount
        = (fileLines.drop 1).length ∧
      (ingest_parallel_model collected oracle st).skippedCount
        = collected.countP (fun o => o.isNone) := by
  intro ciso oracle fileLines st collected hperm horacle
  have hlen : collected.length = (fileLines.drop 1).length := by
    rw [hperm.length_eq, List.length_map]
  have hcle : (collected.filterMap id).length
      = collected.countP (fun o => o.isSome) := length_filterMap_id collected
  have hsum := countP_some_add_none collected
  simp only [ingest_parallel_model, get_db_connection, horacle, ite_true]
  by_cases hl : collected.length = 0
  · rw [if_pos hl]
    have hnil : collected = [] := List.length_eq_zero.mp hl
    subst hnil
    simp at hlen ⊢
    omega
  · rw [if_neg hl]
    cases hcopy : copy_load (ensure_table_and_hypertable st true).1
        (collected.filterMap id) <;>
      simp only [hcopy] <;> constructor <;> omega

/-- C3: on the three concrete lines of the spec's scenario the normalizer
accepts exactly the first two, rendering `2021-05-01 00:00:00` with value
text `50` (numeric value 50.0) and `2021-05-01 00:00:01` with value text
`50.5` (numeric value 50.5), and rejects `garbage;xx` — in both the
accelerated and the fallback parser configuration. -/
theorem C3_concrete_scenario :
    (∀ b : Bool, transform_timestamp_fast b "Sa. 01.05.21 00:00:00;50".data
        = some "2021-05-01 00:00:00,50\n".data) ∧
    (∀ b : Bool, transform_timestamp_fast b "Sa. 01.05.21 00:00:01;50,5".data
        = some "2021-05-01 00:00:01,50.5\n".data) ∧
    (∀ b : Bool, transform_timestamp_fast b "garbage;xx".data = none) ∧
    parseCopyLine "2021-05-01 00:00:00,50\n".data
      = ("2021-05-01 00:00:00".data, "50".data) ∧
    parseCopyLine "2021-05-01 00:00:01,50.5\n".data
      = ("2021-05-01 00:00:01".data, "50.5".data) ∧
    specDecimalValue "50".data = some 50 ∧
    specDecimalValue "50.5".data = some (101 / 2) := by
  refine ⟨?_, ?_, ?_, by decide, by decide,
    by simp +decide [specDecimalValue, digitsToNat, splitAtFirst, allDigits],
    by simp +decide [specDecimalValue, digitsToNat, splitAtFirst, allDigits];
       norm_num⟩ <;>
    (intro b; cases b <;> decide)

/-- C4, counterexample: the normalizer is not idempotent on its own
canonical output — the canonical output of the valid line
`Sa. 01.05.21 00:00:00;50` is rejected when fed back in, because the
output is comma-delimited while the input format requires a semicolon. -/
theorem C4_idempotence_counterexample :
    transform_timestamp_fast true "Sa. 01.05.21 00:00:00;50".data
        = some "2021-05-01 00:00:00,50\n".data ∧
    transform_timestamp_fast true "2021-05-01 00:00:00,50\n".data = none := by
  decide

/-- C4 (amended): the normalizer is a pure function (determinism is
inherent), and re-applying it to any canonical output it produced always
yields a rejection, never the same output, since the canonical output
contains no semicolon delimiter. -/
theorem C4_normalize_reapplication :
    ∀ (b : Bool) (l o : List Char),
      transform_timestamp_fast b l = some o →
        transform_timestamp_fast b o = none := by
  intro b l o h
  obtain ⟨g, freq, rfl, hd, hm, hy, hhh, hmi, hss, hfl, hsemi, hval⟩ :=
    transform_some_inv h
  have hno : ';' ∉ mkOutput g freq :=
    no_semi_mkOutput hd hm hy hhh hmi hss hsemi
  have h2 : ';' ∉ dropTrailing (fun c => c = '\n') (mkOutput g freq) :=
    fun hc => hno (mem_of_mem_dropTrailing hc)
  have h3 := splitSemi_of_no_semi _ h2
  unfold transform_timestamp_fast transformExc
  rw [h3]

/-- C4 witness: the amended theorem applied to the concrete valid line
`Sa. 01.05.21 00:00:01;50,5` in the fallback configuration. -/
theorem C4_normalize_reapplication_witness :
    transform_timestamp_fast false "2021-05-01 00:00:01,50.5\n".data = none :=
  C4_normalize_reapplication false "Sa. 01.05.21 00:00:01;50,5".data
    "2021-05-01 00:00:01,50.5\n".data (by decide)

/-- C5, counterexample: the data-model invariant claimed for every
produced row fails — in the fallback configuration the normalizer accepts
`99.99.21 00:00:00;50`, emitting the non-calendar timestamp
`2021-99-99 00:00:00`; and in the accelerated configuration it accepts
the value text `inf` (Python's `float` admits infinity spellings), which
has no finite decimal reading. -/
theorem C5_row_invariant_counterexample :
    transform_timestamp_fast false "99.99.21 00:00:00;50".data
        = some "2021-99-99 00:00:00,50\n".data ∧
    validDateTime 99 99 21 0 0 0 = false ∧
    transform_timestamp_fast true "Sa. 01.05.21 00:00:00;inf".data
        = some "2021-05-01 00:00:00,inf\n".data ∧
    specDecimalValue "inf".data = none := by decide

/-- C5 (amended): every produced row is the canonical rendering of
two-digit date/time groups and a value text accepted by Python's float
parser (which also admits non-finite spellings, so finiteness is not
guaranteed); the components are calendar-valid when the accelerated
parser is in use, while the fallback configuration checks only the digit
pattern. -/
theorem C5_row_invariant_amended :
    ∀ (b : Bool) (l o : List Char),
      transform_timestamp_fast b l = some o →
        ∃ (g : DateGroups) (freq : List Char),
          o = mkOutput g freq ∧ pyFloatAccepts freq = true ∧
          (b = true → validDateTime (toNat2 g.day) (toNat2 g.month)
            (toNat2 g.year) (toNat2 g.hh) (toNat2 g.mi) (toNat2 g.ss) = true) := by
  intro b l o h
  obtain ⟨g, freq, ho, _, _, _, _, _, _, hfl, _, hval⟩ := transform_some_inv h
  exact ⟨g, freq, ho, hfl, hval⟩

/-- C5 witness: the amended invariant instantiated at the accepted line
`Sa. 01.05.21 00:00:00;50` in the accelerated configuration. -/
theorem C5_row_invariant_witness :
    ∃ (g : DateGroups) (freq : List Char),
      "2021-05-01 00:00:00,50\n".data = mkOutput g freq ∧
      pyFloatAccepts freq = true ∧
      (true = true → validDateTime (toNat2 g.day) (toNat2 g.month)
        (toNat2 g.year) (toNat2 g.hh) (toNat2 g.mi) (toNat2 g.ss) = true) :=
  C5_row_invariant_amended true "Sa. 01.05.21 00:00:00;50".data
    "2021-05-01 00:00:00,50\n".data (by decide)

/-- C6: the normalizer never lets an exception escape — every raised
error inside its body is absorbed into a `None` rejection by the
`try/except` wrapper — and the spec's three malformed examples (bad
timestamp, a single field, non-numeric value) are each rejected without
aborting, in both parser configurations. -/
theorem C6_malformed_rejected :
    (∀ (b : Bool) (l : List Char) (e : PyErr),
        transformExc b l = .error e → transform_timestamp_fast b l = none) ∧
    (∀ b : Bool, transform_timestamp_fast b "not-a-date;50".data = none) ∧
    (∀ b : Bool, transform_timestamp_fast b "01.05.21 00:00:00".data = none) ∧
    (∀ b : Bool, transform_timestamp_fast b "01.05.21 00:00:00;abc".data = none) := by
  refine ⟨?_, ?_, ?_, ?_⟩
  · intro b l e h
    unfold transform_timestamp_fast
    rw [h]
  all_goals (intro b; cases b <;> decide)

/-- C6 witness: the absorption clause applied to the line `garbage;xx`,
whose `float("xx")` check raises a `ValueError` inside the body. -/
theorem C6_malformed_rejected_witness :
    transform_timestamp_fast true "garbage;xx".data = none :=
  C6_malformed_rejected.1 true "garbage;xx".data .valueError (by rfl)

/-- C2 witness: the conservation law at a concrete file with one accepted
and one rejected data line, collected in the sequential order. -/
theorem C2_line_conservation_witness :
    (ingest_parallel_model
          ((["h".data, "Sa. 01.05.21 00:00:00;50".data, "garbage;xx".data].drop 1).map
            (transform_timestamp_fast true)) (fun _ => true)
          ⟨false, false, []⟩).cleanedCount
        + (ingest_parallel_model
          ((["h".data, "Sa. 01.05.21 00:00:00;50".data, "garbage;xx".data].drop 1).map
            (transform_timestamp_fast true)) (fun _ => true)
          ⟨false, false, []⟩).skippedCount
      = (["h".data, "Sa. 01.05.21 00:00:00;50".data, "garbage;xx".data].drop 1).length ∧
    (ingest_parallel_model
          ((["h".data, "Sa. 01.05.21 00:00:00;50".data, "garbage;xx".data].drop 1).map
            (transform_timestamp_fast true)) (fun _ => true)
          ⟨false, false, []⟩).skippedCount
      = (((["h".data, "Sa. 01.05.21 00:00:00;50".data, "garbage;xx".data].drop 1).map
            (transform_timestamp_fast true)).countP (fun o => o.isNone)) :=
  C2_line_conservation true (fun _ => true)
    ["h".data, "Sa. 01.05.21 00:00:00;50".data, "garbage;xx".data]
    ⟨false, false, []⟩ _ (List.Perm.refl _) rfl

/-- C7, counterexample: the claim says no ingestion entry point drops the
relation without an explicit rebuild request; but `ingest_data`, which has
no rebuild parameter at all, issues a `DROP TABLE` on a state where the
relation exists. -/
theorem C7_drop_counterexample :
    SqlOp.dropTable ∈ (ingest_data_model [] ⟨true, true, []⟩).2 := by decide

/-- C7 (amended): the parallel entry point's schema preparer never drops
the relation (it truncates at most) and keeps an existing relation in
place; but `ingest_data` unconditionally drops and recreates the relation
on every run. -/
theorem C7_no_drop_amended :
    (∀ (st : DBState) (c : Bool),
        SqlOp.dropTable ∉ (ensure_table_and_hypertable st c).2) ∧
    (∀ (st : DBState) (c : Bool), st.tableExists = true →
        ((ensure_table_and_hypertable st c).1).tableExists = true) ∧
    (∀ (ciso : Bool) (oracle : Nat → Bool) (fileLines : List (List Char))
        (st : DBState),
        SqlOp.dropTable ∉ (ingest_parallel_run ciso oracle fileLines st).ops) ∧
    (∀ (parsedRows : List Row) (st : DBState), st.tableExists = true →
        SqlOp.dropTable ∈ (ingest_data_model parsedRows st).2) := by
  refine ⟨ensure_ops_no_drop, ensure_keeps_table, ?_, ?_⟩
  · intro ciso oracle fileLines st
    unfold ingest_parallel_run ingest_parallel_model
    cases hconn : get_db_connection oracle with
    | none => simp
    | some u =>
      by_cases hl :
          ((fileLines.drop 1).map (transform_timestamp_fast ciso)).length = 0
      · rw [if_pos hl]
        exact ensure_ops_no_drop st true
      · rw [if_neg hl]
        cases hcopy : copy_load (ensure_table_and_hypertable st true).1
            (((fileLines.drop 1).map (transform_timestamp_fast ciso)).filterMap id) with
        | none => exact ensure_ops_no_drop st true
        | some st2 =>
          intro hmem
          rcases List.mem_append.mp hmem with hm1 | hm2
          · exact ensure_ops_no_drop st true hm1
          · exact absurd (List.mem_singleton.mp hm2) (by decide)
  · intro parsedRows st h
    unfold ingest_data_model
    rw [h]
    simp

/-- C7 witness: the schema preparer leaves an existing relation in place. -/
theorem C7_no_drop_witness :
    ((ensure_table_and_hypertable ⟨true, false, []⟩ false).1).tableExists = true :=
  C7_no_drop_amended.2.1 ⟨true, false, []⟩ false rfl

/-- C8, counterexample: under a connection oracle whose first attempt
fails and all later ones succeed, the claimed 5-attempt retry would
succeed (the query service's pool acquisition does, on attempt index 1),
but the ingestion run aborts fatally — its connection acquisition makes a
single attempt, with no retry. -/
theorem C8_retry_counterexample :
    get_async_db_pool (fun n => !(n == 0)) = some 1 ∧
    (ingest_parallel_run true (fun n => !(n == 0)) ["h".data]
        ⟨false, false, []⟩).fatal = true ∧
    (ingest_parallel_run true (fun n => !(n == 0)) ["h".data]
        ⟨false, false, []⟩).ops = [] ∧
    (ingest_parallel_run true (fun n => !(n == 0)) ["h".data]
        ⟨false, false, []⟩).cleanedCount = 0 ∧
    (ingest_parallel_run true (fun n => !(n == 0)) ["h".data]
        ⟨false, false, []⟩).skippedCount = 0 := by decide

/-- C8 (amended): the ingestion run's connection acquisition is a single
attempt whose failure is fatal before any schema or transform work; and it
is the query service's pool acquisition that retries with a budget of 5
attempts (it succeeds exactly when one of the first five attempts
succeeds). -/
theorem C8_retry_amended :
    (∀ (oracle : Nat → Bool) (ciso : Bool) (fileLines : List (List Char))
        (st : DBState), oracle 0 = false →
        (ingest_parallel_run ciso oracle fileLines st).fatal = true ∧
        (ingest_parallel_run ciso oracle fileLines st).cleanedCount = 0 ∧
        (ingest_parallel_run ciso oracle fileLines st).skippedCount = 0 ∧
        (ingest_parallel_run ciso oracle fileLines st).ops = []) ∧
    (∀ oracle : Nat → Bool,
        (get_async_db_pool oracle).isSome = true ↔
          ∃ i, i < 5 ∧ oracle i = true) := by
  constructor
  · intro oracle ciso fileLines st h
    simp [ingest_parallel_run, ingest_parallel_model, get_db_connection, h]
  · intro oracle
    have h := firstSuccess_isSome oracle 5 0
    simpa [get_async_db_pool] using h

/-- C8 witness: the single-attempt fatality at the all-failures oracle. -/
theorem C8_retry_witness :
    (ingest_parallel_run true (fun _ => false) ["h".data]
        ⟨false, false, []⟩).fatal = true :=
  (C8_retry_amended.1 (fun _ => false) true ["h".data] ⟨false, false, []⟩ rfl).1

/-- C9: any collection order of the pool's results (any permutation of
the per-line transform results — pool size 1 yields the sequential order)
produces the same accepted count, the same rejected count, the same
fatal/success outcome, and the same multiset of loaded rows. -/
theorem C9_pool_size_invariance :
    ∀ (ciso : Bool) (oracle : Nat → Bool) (fileLines : List (List Char))
      (st : DBState) (collected : List (Option (List Char))),
      collected.Perm ((fileLines.drop 1).map (transform_timestamp_fast ciso)) →
      (ingest_parallel_model collected oracle st).cleanedCount
          = (ingest_parallel_run ciso oracle fileLines st).cleanedCount ∧
      (ingest_parallel_model collected oracle st).skippedCount
          = (ingest_parallel_run ciso oracle fileLines st).skippedCount ∧
      (ingest_parallel_model collected oracle st).fatal
          = (ingest_parallel_run ciso oracle fileLines st).fatal ∧
      ((ingest_parallel_model collected oracle st).db.rows).Perm
        ((ingest_parallel_run ciso oracle fileLines st).db.rows) := by
  intro ciso oracle fileLines st collected hperm
  unfold ingest_parallel_run ingest_parallel_model
  cases hconn : get_db_connection oracle with
  | none => exact ⟨rfl, rfl, rfl, List.Perm.refl _⟩
  | some u =>
    have hlen := hperm.length_eq
    by_cases hl : collected.length = 0
    · rw [if_pos hl,
        if_pos (show ((fileLines.drop 1).map (transform_timestamp_fast ciso)).length = 0
          by omega)]
      exact ⟨rfl, rfl, rfl, List.Perm.refl _⟩
    · rw [if_neg hl,
        if_neg (show ¬ ((fileLines.drop 1).map (transform_timestamp_fast ciso)).length = 0
          by omega)]
      have hclperm : (collected.filterMap id).Perm
          (((fileLines.drop 1).map (transform_timestamp_fast ciso)).filterMap id) :=
        hperm.filterMap id
      rcases copy_load_perm (ensure_table_and_hypertable st true).1 hclperm with
        ⟨hn1, hn2⟩ | ⟨s1, s2, hs1, hs2, hrows, hte, hhy⟩
      · rw [hn1, hn2]
        exact ⟨hclperm.length_eq, by rw [hperm.length_eq, hclperm.length_eq], rfl,
          List.Perm.refl _⟩
      · rw [hs1, hs2]
        exact ⟨hclperm.length_eq, by rw [hperm.length_eq, hclperm.length_eq], rfl,
          hrows⟩

/-- C9 witness: a nontrivial collection order — the two results of a
concrete file arriving swapped — gives the same counts, outcome, and row
multiset as the sequential order. -/
theorem C9_pool_size_invariance_witness :
    (ingest_parallel_model [none, some "2021-05-01 00:00:00,50\n".data]
          (fun _ => true) ⟨false, false, []⟩).cleanedCount
        = (ingest_parallel_run true (fun _ => true)
          ["h".data, "Sa. 01.05.21 00:00:00;50".data, "garbage;xx".data]
          ⟨false, false, []⟩).cleanedCount ∧
    (ingest_parallel_model [none, some "2021-05-01 00:00:00,50\n".data]
          (fun _ => true) ⟨false, false, []⟩).skippedCount
        = (ingest_parallel_run true (fun _ => true)
          ["h".data, "Sa. 01.05.21 00:00:00;50".data, "garbage;xx".data]
          ⟨false, false, []⟩).skippedCount ∧
    (ingest_parallel_model [none, some "2021-05-01 00:00:00,50\n".data]
          (fun _ => true) ⟨false, false, []⟩).fatal
        = (ingest_parallel_run true (fun _ => true)
          ["h".data, "Sa. 01.05.21 00:00:00;50".data, "garbage;xx".data]
          ⟨false, false, []⟩).fatal ∧
    ((ingest_parallel_model [none, some "2021-05-01 00:00:00,50\n".data]
          (fun _ => true) ⟨false, false, []⟩).db.rows).Perm
        ((ingest_parallel_run true (fun _ => true)
          ["h".data, "Sa. 01.05.21 00:00:00;50".data, "garbage;xx".data]
          ⟨false, false, []⟩).db.rows) :=
  C9_pool_size_invariance true (fun _ => true)
    ["h".data, "Sa. 01.05.21 00:00:00;50".data, "garbage;xx".data]
    ⟨false, false, []⟩ [none, some "2021-05-01 00:00:00,50\n".data] (by decide)

/-- C10: both read endpoints answer a range with no rows with the HTTP
404 error rather than an empty list, and a well-formed request returns a
non-empty list exactly when the range holds at least one row. -/
theorem C10_empty_range_404 :
    ∀ (rows : List QRow) (s e res : Nat),
      (get_raw_data rows s e = .error 404 ↔ rowsInRange rows s e = []) ∧
      (get_aggregated_data rows s e res = .error 404 ↔ rowsInRange rows s e = []) ∧
      (∀ l, get_raw_data rows s e = .ok l → l ≠ []) ∧
      (∀ l, get_aggregated_data rows s e res = .ok l → l ≠ []) := by
  intro rows s e res
  have hkeys :
      ((sortNat (((rowsInRange rows s e).map (fun r => bucketOf res r.1)).dedup)).map
          (fun k =>
            ((k : Nat),
              (((rowsInRange rows s e).filter
                  (fun r => bucketOf res r.1 = k)).map Prod.snd).sum
                / ((((rowsInRange rows s e).filter
                  (fun r => bucketOf res r.1 = k)).map Prod.snd).length : ℚ)))
        = [] ) ↔ rowsInRange rows s e = [] := by
    rw [List.map_eq_nil_iff, sortNat_eq_nil_iff, List.dedup_eq_nil,
      List.map_eq_nil_iff]
  refine ⟨?_, ?_, ?_, ?_⟩
  · unfold get_raw_data
    by_cases hε : (rowsInRange rows s e).isEmpty = true
    · rw [if_pos hε]
      simp [List.isEmpty_iff.mp hε]
    · rw [if_neg hε]
      constructor
      · intro h; exact absurd h (by simp)
      · intro h; exact absurd (by rw [h]; rfl : (rowsInRange rows s e).isEmpty = true) hε
  · unfold get_aggregated_data
    by_cases hε : (rowsInRange rows s e).isEmpty = true
    · have hnil := List.isEmpty_iff.mp hε
      rw [if_pos (by rw [List.isEmpty_iff, hkeys]; exact hnil)]
      simp [hnil]
    · have hne : ¬ rowsInRange rows s e = [] :=
        fun h => hε (by rw [h]; rfl)
      rw [if_neg (by rw [List.isEmpty_iff, hkeys]; exact hne)]
      constructor
      · intro h; exact absurd h (by simp)
      · intro h; exact absurd h hne
  · intro l hl
    unfold get_raw_data at hl
    by_cases hε : (rowsInRange rows s e).isEmpty = true
    · rw [if_pos hε] at hl; exact absurd hl (by simp)
    · rw [if_neg hε] at hl
      have hle : rowsInRange rows s e = l := Except.ok.inj hl
      intro hnil
      exact hε (by rw [hle, hnil]; rfl)
  · intro l hl
    unfold get_aggregated_data at hl
    by_cases hε : (rowsInRange rows s e).isEmpty = true
    · rw [if_pos (by
          rw [List.isEmpty_iff, hkeys]
          exact List.isEmpty_iff.mp hε)] at hl
      exact absurd hl (by simp)
    · have hne : ¬ rowsInRange rows s e = [] :=
        fun h => hε (by rw [h]; rfl)
      rw [if_neg (by rw [List.isEmpty_iff, hkeys]; exact hne)] at hl
      have := Except.ok.inj hl
      intro hnil
      rw [hnil] at this
      exact hne (hkeys.mp this)

/-- C10 witness: a range containing one stored row yields a non-empty
result from the raw endpoint. -/
theorem C10_empty_range_404_witness :
    ([((5 : Nat), (50 : ℚ))] : List QRow) ≠ [] :=
  (C10_empty_range_404 [((5 : Nat), (50 : ℚ))] 0 9 15).2.2.1
    [((5 : Nat), (50 : ℚ))] (by rfl)

end Swissgrid
